import Mathlib

set_option maxHeartbeats 1000000
set_option maxRecDepth 8000

/-
Verification development for src/interceptor.c, a kernel module that
intercepts system calls and logs invocations of monitored ones per pid.

The shallow embedding below translates the data structures and functions of
src/interceptor.c into pure Lean definitions.  Kernel arrays become functions
from Nat, the linked pid lists become List Int (list_add prepends, so the
head of the Lean list is the most recently added pid, matching the order in
which list_for_each visits the nodes), and the environment oracles
(current_uid, check_pid_from_list, pid_task/find_vpid liveness, kmalloc
success) become explicit boolean or integer parameters.  NR_syscalls,
MY_CUSTOM_SYSCALL and the number of __NR_exit_group are kept as parameters;
their concrete values live in headers outside src/.  The two spinlocks
serialize every function modelled here, so the sequential functional
semantics is the lock-respecting semantics; the lock or unlock order inside
the function named interceptor is additionally modelled as an explicit event
trace for the lock-atomicity analysis.
-/

namespace Interceptor

/-- Errno value 1 (operation not permitted); the C code returns its negation. -/
def EPERM : Int := 1

/-- Errno value 22 (invalid argument). -/
def EINVAL : Int := 22

/-- Errno value 16 (device or resource busy). -/
def EBUSY : Int := 16

/-- Errno value 12 (out of memory). -/
def ENOMEM : Int := 12

/-- Values a slot of sys_call_table, or a saved pointer table[s].f, can hold:
the pristine boot-time handler of slot n, one of the three functions defined
in src/interceptor.c (the generic interceptor shim, the administrative
syscall handler my_syscall, the exit_group hook my_exit_group), or the NULL
pointer, which is the value of a never-written static function pointer. -/
inductive Handler where
  | orig (n : Nat)
  | interceptor
  | my_syscall
  | my_exit_group
  | null
deriving DecidableEq

/-- One entry of the bookkeeping array: mirrors the typedef struct mytable of
src/interceptor.c lines 60-78, with fields f (saved handler), intercepted
(0 or 1), monitored (0 = not monitored, 1 = some pids monitored, 2 = all
pids monitored), listcount, and my_list.  Pids are C pid_t, embedded as Int. -/
structure mytable where
  f : Handler
  intercepted : Int
  monitored : Int
  listcount : Int
  my_list : List Int
deriving DecidableEq

/-- The mutable globals of src/interceptor.c: the bookkeeping array table
(line 81, indexed by syscall number, sized NR_syscalls+1), the kernel
sys_call_table, and the two saved original handlers (orig_exit_group at line
246, orig_custom_syscall at line 545). -/
structure KState where
  table : Nat → mytable
  sys_call_table : Nat → Handler
  orig_custom_syscall : Handler
  orig_exit_group : Handler

/-- Pointwise update of an array modelled as a function. -/
def upd {α : Type} (t : Nat → α) (i : Nat) (v : α) : Nat → α :=
  fun j => if j = i then v else t j

/-- Function add_pid_sysc (src/interceptor.c lines 99-113): allocate a node
(allocOk models kmalloc success; on failure return -ENOMEM), prepend pid to
table[sysc].my_list (list_add inserts right after the head) and increment
listcount. -/
def add_pid_sysc (pid : Int) (sysc : Nat) (allocOk : Bool) (st : KState) : Int × KState :=
  if allocOk = false then (-ENOMEM, st)
  else
    let e := st.table sysc
    let e' := { e with my_list := pid :: e.my_list, listcount := e.listcount + 1 }
    (0, { st with table := upd st.table sysc e' })

/-- Helper for del_pid_sysc: walk the list in visiting order and remove the
first node whose pid matches; none when no node matches (the C loop then
falls through to return -EINVAL). -/
def delFirst (pid : Int) : List Int → Option (List Int)
  | [] => none
  | x :: xs => if x = pid then some xs else (delFirst pid xs).map (fun l => x :: l)

/-- Function del_pid_sysc (src/interceptor.c lines 119-144): remove the first
matching pid from table[sysc].my_list, decrement listcount, and if the count
reaches zero while monitored == 1, reset monitored to 0; -EINVAL when the pid
is not in the list. -/
def del_pid_sysc (pid : Int) (sysc : Nat) (st : KState) : Int × KState :=
  let e := st.table sysc
  match delFirst pid e.my_list with
  | none => (-EINVAL, st)
  | some l =>
    let c := e.listcount - 1
    let m := if c = 0 ∧ e.monitored = 1 then 0 else e.monitored
    let e' := { e with my_list := l, listcount := c, monitored := m }
    (0, { st with table := upd st.table sysc e' })

/-- Result of scanning one list inside del_pid: the surviving nodes, the
final listcount, the final monitored value, and whether any node matched. -/
structure ScanResult where
  lst : List Int
  cnt : Int
  mode : Int
  found : Bool
deriving DecidableEq

/-- Inner loop of del_pid (src/interceptor.c lines 158-174) over one list:
list_for_each_safe removes every node whose pid matches, decrementing
listcount per removal and applying the monitored reset check (count zero and
monitored == 1 resets monitored to 0) after each removal. -/
def delScan (pid : Int) : List Int → Int → Int → ScanResult
  | [], c, m => ⟨[], c, m, false⟩
  | x :: xs, c, m =>
    if x = pid then
      let c' := c - 1
      let m' := if c' = 0 ∧ m = 1 then 0 else m
      let r := delScan pid xs c' m'
      ⟨r.lst, r.cnt, r.mode, true⟩
    else
      let r := delScan pid xs c m
      ⟨x :: r.lst, r.cnt, r.mode, r.found⟩

/-- Effect of the del_pid inner loop on one table entry. -/
def del_pid_entry (pid : Int) (e : mytable) : mytable × Bool :=
  let r := delScan pid e.my_list e.listcount e.monitored
  ({ e with my_list := r.lst, listcount := r.cnt, monitored := r.mode }, r.found)

/-- One iteration of the outer for loop of del_pid, carrying the ispid flag. -/
def delStep (pid : Int) (acc : Bool × KState) (s : Nat) : Bool × KState :=
  let r := del_pid_entry pid (acc.2.table s)
  (acc.1 || r.2, { acc.2 with table := upd acc.2.table s r.1 })

/-- Function del_pid (src/interceptor.c lines 150-179): for s = 1 while
s < NR_syscalls, remove pid from table[s].my_list wherever present; return 0
if the pid was found in at least one list and -1 otherwise.  Note the loop
runs over s in [1, NR_syscalls), so index NR_syscalls is never visited. -/
def del_pid (NR : Nat) (pid : Int) (st : KState) : Int × KState :=
  let r := (List.range' 1 (NR - 1)).foldl (delStep pid) (false, st)
  (if r.1 then 0 else -1, r.2)

/-- Function destroy_list (src/interceptor.c lines 184-198): free every node
of table[sysc].my_list, set listcount to 0 and monitored to 0. -/
def destroy_list (sysc : Nat) (st : KState) : KState :=
  let e := st.table sysc
  let e' := { e with my_list := [], listcount := 0, monitored := 0 }
  { st with table := upd st.table sysc e' }

/-- Function check_pid_monitored (src/interceptor.c lines 219-232): linear
scan of table[sysc].my_list for pid. -/
def check_pid_monitored (sysc : Nat) (pid : Int) (st : KState) : Bool :=
  (st.table sysc).my_list.contains pid

/-- Register file passed to syscalls; ax holds the syscall number used to
index table, the remaining registers carry the syscall arguments. -/
structure PtRegs where
  ax : Nat
  bx : Int
  cx : Int
  dx : Int
  si : Int
  di : Int
  bp : Int
deriving DecidableEq

/-- One record emitted by log_message: the calling pid, the syscall
number, and the raw argument registers. -/
structure LogRec where
  pid : Int
  ax : Nat
  bx : Int
  cx : Int
  dx : Int
  si : Int
  di : Int
  bp : Int
deriving DecidableEq

/-- The logging condition of the interceptor (src/interceptor.c line 305):
log when monitoring all pids and the caller is not listed, or when monitoring
some pids and the caller is listed. -/
def logDecision (monitored : Int) (hasPid : Bool) : Bool :=
  (monitored == 2 && !hasPid) || (monitored == 1 && hasPid)

/-- Function interceptor (src/interceptor.c lines 291-312), as a pure
function of the state: compute membership of the calling pid in the list of
syscall reg.ax, decide whether to log, and tail-call table[reg.ax].f with the
unmodified registers.  The returned triple is the emitted log record (if
any), the handler the shim forwards to, and the registers it passes along.
The lock structure of the C function is modelled separately by
interceptorEvents below. -/
def interceptor (curPid : Int) (reg : PtRegs) (st : KState) : Option LogRec × Handler × PtRegs :=
  let hasPid := check_pid_monitored reg.ax curPid st
  let logged :=
    if logDecision (st.table reg.ax).monitored hasPid
    then some ⟨curPid, reg.ax, reg.bx, reg.cx, reg.dx, reg.si, reg.di, reg.bp⟩
    else none
  (logged, (st.table reg.ax).f, reg)

/-- Function my_exit_group (src/interceptor.c lines 255-270): under both
locks, remove the exiting pid from all lists via del_pid, then invoke the
saved original exit_group handler.  Returns the purged state and the handler
that is then invoked. -/
def my_exit_group (NR : Nat) (curPid : Int) (st : KState) : KState × Handler :=
  let r := del_pid NR curPid st
  (r.2, r.2.orig_exit_group)

/-- Function request_syscall_intercept (src/interceptor.c lines 314-337):
root only; -EBUSY if already intercepted; otherwise install the interceptor
shim in sys_call_table[syscall] and set the intercepted flag.  Note the
original handler is not saved here; it was captured by init_function. -/
def request_syscall_intercept (uid : Int) (syscall : Nat) (st : KState) : Int × KState :=
  if uid ≠ 0 then (-EPERM, st)
  else if (st.table syscall).intercepted = 1 then (-EBUSY, st)
  else
    (0, { st with
          sys_call_table := upd st.sys_call_table syscall .interceptor,
          table := upd st.table syscall { st.table syscall with intercepted := 1 } })

/-- Function request_syscall_release (src/interceptor.c lines 339-361): root
only; -EINVAL if not intercepted; otherwise write table[syscall].f back into
sys_call_table[syscall] and clear the intercepted flag. -/
def request_syscall_release (uid : Int) (syscall : Nat) (st : KState) : Int × KState :=
  if uid ≠ 0 then (-EPERM, st)
  else if (st.table syscall).intercepted = 0 then (-EINVAL, st)
  else
    (0, { st with
          sys_call_table := upd st.sys_call_table syscall (st.table syscall).f,
          table := upd st.table syscall { st.table syscall with intercepted := 0 } })

/-- Set table[sysc].monitored, as done by the assignments at lines 386, 397
and 445 of src/interceptor.c. -/
def setMonitored (sysc : Nat) (m : Int) (st : KState) : KState :=
  { st with table := upd st.table sysc { st.table sysc with monitored := m } }

/-- Shared body of the pid-nonzero add branches of request_start_monitoring
(src/interceptor.c lines 392-399) and request_stop_monitoring (lines
440-447), which are textually identical in the C file: if the pid is already
listed the status is -EBUSY; otherwise add_pid_sysc runs, and when its status
is 0 the code sets table[syscall].monitored = 1. -/
def monitorAdd (syscall : Nat) (pid : Int) (allocOk : Bool) (st : KState) : Int × KState :=
  if check_pid_monitored syscall pid st then (-EBUSY, st)
  else if (add_pid_sysc pid syscall allocOk st).1 = 0 then
    (0, setMonitored syscall 1 (add_pid_sysc pid syscall allocOk st).2)
  else add_pid_sysc pid syscall allocOk st

/-- Function request_start_monitoring (src/interceptor.c lines 363-410).
The parameter owns is the outcome of check_pid_from_list(pid, current->pid)
being 0, i.e. whether the caller owns the target pid; uid is current_uid().
Permission: not root and (pid == 0 or not owner) is -EPERM.  For pid == 0:
-EBUSY if already monitoring all, otherwise destroy the list and set
monitored = 2.  For pid != 0: if not monitoring all, the add branch
(monitorAdd); if monitoring all, del_pid_sysc removes the pid from the
exclusion list. -/
def request_start_monitoring (uid : Int) (owns : Bool) (syscall : Nat) (pid : Int)
    (allocOk : Bool) (st : KState) : Int × KState :=
  if uid ≠ 0 ∧ (pid = 0 ∨ owns = false) then (-EPERM, st)
  else if pid = 0 then
    if (st.table syscall).monitored = 2 then (-EBUSY, st)
    else (0, setMonitored syscall 2 (destroy_list syscall st))
  else if (st.table syscall).monitored ≠ 2 then
    monitorAdd syscall pid allocOk st
  else
    del_pid_sysc pid syscall st

/-- Function request_stop_monitoring (src/interceptor.c lines 412-458).
Permission check identical to request_start_monitoring.  For pid == 0:
-EINVAL unless monitoring all, otherwise destroy the list.  For pid != 0: if
monitoring all, the add branch (monitorAdd, which also sets monitored = 1 on
success, exactly as the C file does at line 445); otherwise del_pid_sysc. -/
def request_stop_monitoring (uid : Int) (owns : Bool) (syscall : Nat) (pid : Int)
    (allocOk : Bool) (st : KState) : Int × KState :=
  if uid ≠ 0 ∧ (pid = 0 ∨ owns = false) then (-EPERM, st)
  else if pid = 0 then
    if (st.table syscall).monitored ≠ 2 then (-EINVAL, st)
    else (0, destroy_list syscall st)
  else if (st.table syscall).monitored = 2 then
    monitorAdd syscall pid allocOk st
  else
    del_pid_sysc pid syscall st

/-- The four administrative commands of the my_syscall switch.  The concrete
integer values REQUEST_SYSCALL_INTERCEPT, REQUEST_SYSCALL_RELEASE,
REQUEST_START_MONITORING and REQUEST_STOP_MONITORING are defined in the
header interceptor.h, which is not part of src/.  Modelled from the spec:
the four command constants are distinct integers, and every other integer
value falls through to the default case of the switch; this is captured by
an enumeration with a constructor carrying any other code. -/
inductive Cmd where
  | intercept
  | release
  | start_monitoring
  | stop_monitoring
  | other (code : Int)
deriving DecidableEq

/-- Function my_syscall (src/interceptor.c lines 509-540): reject syscall
numbers outside (0, NR_syscalls] with -EINVAL, then dispatch on the command;
for the two monitoring commands first reject a nonzero pid that does not
resolve to a live process (pidExists models pid_task(find_vpid(pid)) being
non-NULL); unknown commands fall to the default case, -EINVAL.  Note the C
code never compares syscall against MY_CUSTOM_SYSCALL. -/
def my_syscall (NR : Nat) (uid : Int) (owns pidExists allocOk : Bool)
    (cmd : Cmd) (syscall pid : Int) (st : KState) : Int × KState :=
  if syscall ≤ 0 ∨ syscall > (NR : Int) then (-EINVAL, st)
  else
    match cmd with
    | .intercept => request_syscall_intercept uid syscall.toNat st
    | .release => request_syscall_release uid syscall.toNat st
    | .start_monitoring =>
        if pid ≠ 0 ∧ pidExists = false then (-EINVAL, st)
        else request_start_monitoring uid owns syscall.toNat pid allocOk st
    | .stop_monitoring =>
        if pid ≠ 0 ∧ pidExists = false then (-EINVAL, st)
        else request_stop_monitoring uid owns syscall.toNat pid allocOk st
    | .other _ => (-EINVAL, st)

/-- Function init_function (src/interceptor.c lines 563-597): save the
handler currently in sys_call_table[MY_CUSTOM_SYSCALL] and replace it by
my_syscall; then save the handler currently in sys_call_table[__NR_exit_group]
and replace it by my_exit_group; then, for syscall = 0 while
syscall < NR_syscalls, set listcount = 0, intercepted = 0, monitored = 0,
capture f = sys_call_table[syscall] (read after the two replacements above)
and reset the list head to an empty list.  Note the loop never touches index NR_syscalls. -/
def init_function (NR MCS EXITG : Nat) (st : KState) : KState :=
  let sct1 := upd st.sys_call_table MCS .my_syscall
  let sct2 := upd sct1 EXITG .my_exit_group
  { table := fun s => if s < NR then ⟨sct2 s, 0, 0, 0, []⟩ else st.table s,
    sys_call_table := sct2,
    orig_custom_syscall := st.sys_call_table MCS,
    orig_exit_group := sct1 EXITG }

/-- The boot state: every slot of sys_call_table holds its pristine handler,
and the static globals of the module are zeroed, so every table
entry has NULL f, flags 0 and an empty list. -/
def state0 : KState :=
  { table := fun _ => ⟨.null, 0, 0, 0, []⟩,
    sys_call_table := fun n => .orig n,
    orig_custom_syscall := .null,
    orig_exit_group := .null }

/-- The two spinlocks of src/interceptor.c (lines 84-85): calltable_lock
guards structural state (intercepted flags, handler pointers, monitored) and
pidlist_lock guards list contents. -/
inductive LockId where
  | calltable
  | pidlist
deriving DecidableEq

/-- Lock operations and shared-state reads, for tracing the interceptor. -/
inductive ShimEvent where
  | lock (l : LockId)
  | unlock (l : LockId)
  | readMembership
  | readMode
deriving DecidableEq

/-- The sequence of lock operations and shared reads performed by the
function interceptor (src/interceptor.c lines 291-312), in program order:
spin_lock(calltable_lock); spin_lock(pidlist_lock); check_pid_monitored
(the membership read, line 298); spin_unlock(pidlist_lock);
spin_unlock(calltable_lock); and only then the read of
table[reg.ax].monitored in the logging condition (line 305). -/
def interceptorEvents : List ShimEvent :=
  [.lock .calltable, .lock .pidlist, .readMembership,
   .unlock .pidlist, .unlock .calltable, .readMode]

/-- Both locks are in the held set. -/
def bothHeld (held : List LockId) : Bool :=
  held.contains .calltable && held.contains .pidlist

/-- Check, carrying the set of currently held locks, that every shared read
of the trace happens while both locks are held. -/
def atomicReads (held : List LockId) : List ShimEvent → Bool
  | [] => true
  | e :: rest =>
    match e with
    | .lock l => atomicReads (l :: held) rest
    | .unlock l => atomicReads (held.filter (fun k => k ≠ l)) rest
    | .readMembership => bothHeld held && atomicReads held rest
    | .readMode => bothHeld held && atomicReads held rest

/-- Logging decision from one consistent snapshot of an entry. -/
def snapshotDecision (e : mytable) (pid : Int) : Bool :=
  logDecision e.monitored (e.my_list.contains pid)

/-- Logging decision the split-lock interceptor actually computes when the
entry changes between its two reads: membership is read from the earlier
state, monitored from the later one. -/
def splitDecision (memberState modeState : mytable) (pid : Int) : Bool :=
  logDecision modeState.monitored (memberState.my_list.contains pid)

/-- Concrete instantiation used by the scenario theorems: NR_syscalls = 5,
MY_CUSTOM_SYSCALL = 3, __NR_exit_group = 4, after module initialization. -/
def stInit : KState := init_function 5 3 4 state0

/-- Registers for an invocation of syscall 2 (arguments all zero). -/
def regs2 : PtRegs := ⟨2, 0, 0, 0, 0, 0, 0⟩

/-- State after the root caller issues StartMonitoring(2, pid = 0), putting
operation 2 in monitor-all mode with an empty exclusion list. -/
def stAll2 : KState := (my_syscall 5 0 true true true .start_monitoring 2 0 stInit).2

/-- Result of the root caller then issuing StopMonitoring(2, pid = 42). -/
def c1stop : Int × KState := my_syscall 5 0 true true true .stop_monitoring 2 42 stAll2

/-- State in which pid 42 sits on the monitoring lists of operations 5 and 2
(both added through the administrative entry point, which accepts syscall
number 5 = NR_syscalls as valid). -/
def c4setup : KState :=
  (my_syscall 5 0 true true true .start_monitoring 2 42
    (my_syscall 5 0 true true true .start_monitoring 5 42 stInit).2).2

/-- Result of the exit_group hook running for pid 42 in that state. -/
def c4exit : KState × Handler := my_exit_group 5 42 c4setup

/-- Result of Intercept followed by Release on operation 2 (a valid
operation below NR_syscalls), issued by root through my_syscall. -/
def c5round2 : Int × KState :=
  my_syscall 5 0 true true true .release 2 0
    (my_syscall 5 0 true true true .intercept 2 0 stInit).2

/-- Result of Intercept followed by Release on operation 5 = NR_syscalls
(accepted as valid by my_syscall), issued by root. -/
def c5round5 : Int × KState :=
  my_syscall 5 0 true true true .release 5 0
    (my_syscall 5 0 true true true .intercept 5 0 stInit).2

/-- Result of issuing the Intercept command for operation 3, which is
MY_CUSTOM_SYSCALL itself in this instantiation, as root. -/
def c2admin : Int × KState := my_syscall 5 0 true true true .intercept 3 0 stInit

/-- An entry in whitelist mode whose only member is pid 42, used by the
concrete interleaving of the lock-atomicity analysis. -/
def wlEntry : mytable := ⟨.orig 2, 1, 1, 1, [42]⟩

/-- A state whose operation 2 is in whitelist mode with member 42. -/
def c3st : KState := { state0 with table := upd state0.table 2 wlEntry }

/-- A state for witnesses: operation 2 in whitelist mode with single member
42, operation 3 in monitor-all mode with an empty exclusion list. -/
def c7st : KState :=
  { state0 with table := upd (upd state0.table 2 ⟨.orig 2, 1, 1, 1, [42]⟩) 3 ⟨.orig 3, 1, 2, 0, []⟩ }

/-- One abstract list-manipulation request, for stating that the listcount
invariant survives arbitrary sequences of the four list operations of
src/interceptor.c. -/
inductive ListOp where
  | add (pid : Int) (sysc : Nat) (allocOk : Bool)
  | del (pid : Int) (sysc : Nat)
  | delEverywhere (pid : Int)
  | clear (sysc : Nat)

/-- Apply one list operation to the state: add_pid_sysc, del_pid_sysc,
del_pid (remove everywhere) or destroy_list. -/
def listStep (NR : Nat) (st : KState) : ListOp → KState
  | .add pid sysc ok => (add_pid_sysc pid sysc ok st).2
  | .del pid sysc => (del_pid_sysc pid sysc st).2
  | .delEverywhere pid => (del_pid NR pid st).2
  | .clear sysc => destroy_list sysc st

/-- The member-count invariant: for every operation entry, listcount equals
the length of its pid list. -/
def countInv (st : KState) : Prop :=
  ∀ s : Nat, (st.table s).listcount = (((st.table s).my_list.length : Int))

@[simp] lemma upd_self {α : Type} (t : Nat → α) (i : Nat) (v : α) : upd t i v i = v := by
  simp [upd]

lemma upd_ne {α : Type} (t : Nat → α) {i j : Nat} (v : α) (h : j ≠ i) : upd t i v j = t j := by
  simp [upd, h]

/-- C1: the claim fails on the code.  With operation 2 in monitor-all mode
and an empty list, StopMonitoring(2, 42) issued by root returns 0 and adds
42 to the list, but line 445 of src/interceptor.c then sets monitored = 1
(whitelist) instead of leaving it 2 (all): a subsequent call to operation 2
by pid 42 DOES log while a call by pid 7 does NOT (the exact opposite of the
claim), and issuing StopMonitoring(2, 42) again returns 0 (removing 42 from
what is now a whitelist) instead of -EBUSY. -/
theorem stop_monitoring_all_mode_bug :
    (stAll2.table 2).monitored = 2 ∧ (stAll2.table 2).my_list = []
  ∧ c1stop.1 = 0
  ∧ (c1stop.2.table 2).my_list.contains 42 = true
  ∧ (c1stop.2.table 2).monitored = 1
  ∧ ((interceptor 42 regs2 c1stop.2).1).isSome = true
  ∧ ((interceptor 7 regs2 c1stop.2).1).isSome = false
  ∧ (my_syscall 5 0 true true true .stop_monitoring 2 42 c1stop.2).1 = 0
  ∧ (my_syscall 5 0 true true true .stop_monitoring 2 42 c1stop.2).1 ≠ -EBUSY := by
  decide

/-- C2: the claim fails on the code.  my_syscall validates only the range
0 < syscall <= NR_syscalls and never compares syscall against
MY_CUSTOM_SYSCALL (contradicting the validity rule stated in its own comment
block): with MY_CUSTOM_SYSCALL = 3, Intercept(3) by root returns 0 instead
of -EINVAL and mutates state, replacing the administrative handler itself in
the dispatch table by the interceptor shim.  The two out-of-range conjuncts
show the range half of the check does behave as claimed. -/
theorem my_syscall_accepts_admin_id :
    c2admin.1 = 0
  ∧ c2admin.1 ≠ -EINVAL
  ∧ (c2admin.2.table 3).intercepted = 1
  ∧ c2admin.2.sys_call_table 3 = Handler.interceptor
  ∧ stInit.sys_call_table 3 = Handler.my_syscall
  ∧ (my_syscall 5 0 true true true .intercept 0 0 stInit).1 = -EINVAL
  ∧ (my_syscall 5 0 true true true .intercept 6 0 stInit).1 = -EINVAL := by
  decide

/-- C3: the claim fails on the code.  First conjunct: in the event trace of
the function interceptor the read of table[reg.ax].monitored happens after
both spin_unlock calls, so the membership read and the mode read are not
covered by one held lock pair.  Remaining conjuncts: a concrete interleaving
in which this produces a decision no atomic snapshot can produce.  Operation
2 is in whitelist mode with list {42}; the shim reads membership for pid 42
(true) under the locks; a concurrent StartMonitoring(2, pid = 0) by root
then switches the entry to monitor-all with an empty list before the shim
reads monitored: the split decision is NOT to log, although the snapshot
decision is to log both in the state before the command and in the state
after it. -/
theorem interceptor_split_lock_defect :
    atomicReads [] interceptorEvents = false
  ∧ (request_start_monitoring 0 true 2 0 true c3st).1 = 0
  ∧ splitDecision wlEntry ((request_start_monitoring 0 true 2 0 true c3st).2.table 2) 42 = false
  ∧ snapshotDecision wlEntry 42 = true
  ∧ snapshotDecision ((request_start_monitoring 0 true 2 0 true c3st).2.table 2) 42 = true := by
  decide

/-- C4: the claim fails on the code.  With pid 42 on the lists of operations
2 and 5 (5 = NR_syscalls, accepted as a valid operation by my_syscall), the
exit_group hook purges 42 from operation 2 but not from operation 5, because
the loop of del_pid runs for s = 1 while s < NR_syscalls and never visits
index NR_syscalls; the hook then forwards to the saved original exit_group
handler. -/
theorem exit_hook_misses_largest_operation :
    check_pid_monitored 5 42 c4setup = true
  ∧ check_pid_monitored 2 42 c4setup = true
  ∧ check_pid_monitored 2 42 c4exit.1 = false
  ∧ check_pid_monitored 5 42 c4exit.1 = true
  ∧ c4exit.2 = Handler.orig 4 := by
  decide

/-- C5: the claim fails on the code at the largest valid operation.  For
operation 2, Intercept then Release restores the boot handler captured by
init_function.  But the capture loop of init_function runs for syscall = 0
while syscall < NR_syscalls, so table[NR_syscalls].f is never written and
keeps its zeroed NULL value; operation 5 = NR_syscalls is
nevertheless accepted by my_syscall, and Intercept(5) followed by Release(5)
writes NULL into the dispatch slot instead of the original handler orig 5. -/
theorem release_largest_operation_loses_handler :
    c5round2.1 = 0
  ∧ c5round2.2.sys_call_table 2 = Handler.orig 2
  ∧ state0.sys_call_table 2 = Handler.orig 2
  ∧ (my_syscall 5 0 true true true .intercept 5 0 stInit).1 = 0
  ∧ c5round5.1 = 0
  ∧ c5round5.2.sys_call_table 5 = Handler.null
  ∧ state0.sys_call_table 5 = Handler.orig 5
  ∧ Handler.null ≠ Handler.orig 5 := by
  decide

lemma logDecision_eq_true (m : Int) (h : Bool) :
    logDecision m h = true ↔ (m = 2 ∧ h = false) ∨ (m = 1 ∧ h = true) := by
  cases h <;> simp [logDecision]

/-- C6: confirmed.  On an invocation of the interceptor by process p for
syscall reg.ax, a log record is emitted iff monitored == 2 (all) and p is
not listed, or monitored == 1 (whitelist) and p is listed — so monitored ==
0 never logs — and the shim forwards to the captured handler
table[reg.ax].f with the registers unchanged. -/
theorem interceptor_log_iff (st : KState) (p : Int) (reg : PtRegs) :
    (((interceptor p reg st).1).isSome = true ↔
        ((st.table reg.ax).monitored = 2 ∧ (st.table reg.ax).my_list.contains p = false)
      ∨ ((st.table reg.ax).monitored = 1 ∧ (st.table reg.ax).my_list.contains p = true))
  ∧ (interceptor p reg st).2.1 = (st.table reg.ax).f
  ∧ (interceptor p reg st).2.2 = reg := by
  refine ⟨?_, rfl, rfl⟩
  rw [← logDecision_eq_true]
  simp only [interceptor, check_pid_monitored]
  split
  · next hb => exact iff_of_true rfl hb
  · next hb => exact iff_of_false (by simp) hb

/-- Closed instance of interceptor_log_iff at a concrete state. -/
theorem interceptor_log_iff_witness :
    (((interceptor 42 regs2 c3st).1).isSome = true ↔
        ((c3st.table regs2.ax).monitored = 2 ∧ (c3st.table regs2.ax).my_list.contains 42 = false)
      ∨ ((c3st.table regs2.ax).monitored = 1 ∧ (c3st.table regs2.ax).my_list.contains 42 = true))
  ∧ (interceptor 42 regs2 c3st).2.1 = (c3st.table regs2.ax).f
  ∧ (interceptor 42 regs2 c3st).2.2 = regs2 :=
  interceptor_log_iff c3st 42 regs2

lemma delScan_mode_of_ne_one (pid : Int) (l : List Int) :
    ∀ c m : Int, m ≠ 1 → (delScan pid l c m).mode = m := by
  induction l with
  | nil => intro c m _; rfl
  | cons x xs ih =>
    intro c m h
    by_cases hx : x = pid
    · simp only [delScan, if_pos hx]
      rw [if_neg (fun hc => h hc.2)]
      exact ih (c - 1) m h
    · simp only [delScan, if_neg hx]
      exact ih c m h

lemma foldl_delStep_table_not_mem (pid : Int) (l : List Nat) :
    ∀ (s : Nat), s ∉ l → ∀ (b : Bool) (st : KState),
      ((l.foldl (delStep pid) (b, st)).2).table s = st.table s := by
  induction l with
  | nil => intro s _ b st; rfl
  | cons a t ih =>
    intro s hs b st
    have hst : s ∉ t := fun h => hs (List.mem_cons_of_mem a h)
    have hsa : s ≠ a := fun h => hs (h ▸ List.mem_cons_self a t)
    simp only [List.foldl_cons]
    rw [ih s hst _ _]
    simp only [delStep]
    exact upd_ne _ _ hsa

lemma foldl_delStep_table_mem (pid : Int) (l : List Nat) :
    ∀ (s : Nat), l.Nodup → s ∈ l → ∀ (b : Bool) (st : KState),
      ((l.foldl (delStep pid) (b, st)).2).table s = (del_pid_entry pid (st.table s)).1 := by
  induction l with
  | nil => intro s _ hs; cases hs
  | cons a t ih =>
    intro s hn hs b st
    rcases List.mem_cons.mp hs with h | h
    · subst h
      have hst : s ∉ t := (List.nodup_cons.mp hn).1
      simp only [List.foldl_cons]
      rw [foldl_delStep_table_not_mem pid t s hst _ _]
      simp only [delStep]
      exact upd_self ..
    · have hn' := (List.nodup_cons.mp hn).2
      have hsa : s ≠ a := fun he => (List.nodup_cons.mp hn).1 (he ▸ h)
      simp only [List.foldl_cons]
      rw [ih s hn' h _ _]
      simp only [delStep]
      rw [upd_ne _ _ hsa]

lemma del_pid_table_mem (NR : Nat) (pid : Int) (st : KState) (s : Nat)
    (h1 : 1 ≤ s) (h2 : s < NR) :
    ((del_pid NR pid st).2).table s = (del_pid_entry pid (st.table s)).1 := by
  simp only [del_pid]
  apply foldl_delStep_table_mem
  · exact List.nodup_range' 1 (NR - 1)
  · rw [List.mem_range'_1]
    omega

lemma del_pid_table_not_mem (NR : Nat) (pid : Int) (st : KState) (s : Nat)
    (h : s = 0 ∨ NR ≤ s) :
    ((del_pid NR pid st).2).table s = st.table s := by
  simp only [del_pid]
  apply foldl_delStep_table_not_mem
  rw [List.mem_range'_1]
  omega

lemma del_pid_entry_mode_all (pid : Int) (e : mytable) (h : e.monitored = 2) :
    ((del_pid_entry pid e).1).monitored = 2 := by
  have hm := delScan_mode_of_ne_one pid e.my_list e.listcount e.monitored (by rw [h]; decide)
  simp only [del_pid_entry]
  rw [hm, h]

lemma del_pid_sysc_mode_all (pid : Int) (sysc : Nat) (st : KState)
    (h : (st.table sysc).monitored = 2) :
    (((del_pid_sysc pid sysc st).2).table sysc).monitored = 2 := by
  simp only [del_pid_sysc]
  cases hd : delFirst pid (st.table sysc).my_list with
  | none => exact h
  | some l =>
    simp only [upd_self]
    rw [if_neg (fun hc => by rw [h] at hc; exact absurd hc.2 (by decide))]
    exact h

lemma del_pid_sysc_whitelist_reset (pid : Int) (sysc : Nat) (st : KState)
    (hm : (st.table sysc).monitored = 1) (hl : (st.table sysc).my_list = [pid])
    (hc : (st.table sysc).listcount = 1) :
    (((del_pid_sysc pid sysc st).2).table sysc).monitored = 0 := by
  have hd : delFirst pid (st.table sysc).my_list = some [] := by
    rw [hl]; simp [delFirst]
  simp only [del_pid_sysc, hd, upd_self]
  rw [if_pos ⟨by rw [hc]; decide, hm⟩]

lemma del_pid_mode_all (NR : Nat) (pid : Int) (st : KState) (s : Nat)
    (h : (st.table s).monitored = 2) :
    (((del_pid NR pid st).2).table s).monitored = 2 := by
  by_cases hs : 1 ≤ s ∧ s < NR
  · rw [del_pid_table_mem NR pid st s hs.1 hs.2]
    exact del_pid_entry_mode_all pid _ h
  · rw [del_pid_table_not_mem NR pid st s (by omega)]
    exact h

lemma del_pid_whitelist_reset (NR : Nat) (pid : Int) (st : KState) (s : Nat)
    (h1 : 1 ≤ s) (h2 : s < NR) (hm : (st.table s).monitored = 1)
    (hl : (st.table s).my_list = [pid]) (hc : (st.table s).listcount = 1) :
    (((del_pid NR pid st).2).table s).monitored = 0 := by
  rw [del_pid_table_mem NR pid st s h1 h2]
  simp only [del_pid_entry, hl, hm, hc, delScan, if_pos rfl]
  norm_num

/-- C7: confirmed.  Removing the last member of a whitelist mode entry (via
del_pid_sysc or via the remove-everywhere function del_pid, for the indices
its loop visits) automatically resets monitored from 1 (whitelist) to 0
(none), while an entry in mode 2 (all) keeps mode 2 under both removal
functions: emptying the exclusion list never resets monitor-all. -/
theorem whitelist_auto_reset (pid : Int) (sysc s NR : Nat) (st : KState) :
    (((st.table sysc).monitored = 1 ∧ (st.table sysc).my_list = [pid] ∧ (st.table sysc).listcount = 1)
      → (((del_pid_sysc pid sysc st).2).table sysc).monitored = 0)
  ∧ ((st.table sysc).monitored = 2
      → (((del_pid_sysc pid sysc st).2).table sysc).monitored = 2)
  ∧ (((st.table s).monitored = 1 ∧ (st.table s).my_list = [pid] ∧ (st.table s).listcount = 1
        ∧ 1 ≤ s ∧ s < NR)
      → (((del_pid NR pid st).2).table s).monitored = 0)
  ∧ ((st.table s).monitored = 2
      → (((del_pid NR pid st).2).table s).monitored = 2) := by
  refine ⟨fun h => del_pid_sysc_whitelist_reset pid sysc st h.1 h.2.1 h.2.2,
          fun h => del_pid_sysc_mode_all pid sysc st h,
          fun h => del_pid_whitelist_reset NR pid st s h.2.2.2.1 h.2.2.2.2 h.1 h.2.1 h.2.2.1,
          fun h => del_pid_mode_all NR pid st s h⟩

/-- Closed instance of whitelist_auto_reset: removing pid 42, sole member of
the whitelist of operation 2, resets its mode to 0, while operation 3 in
monitor-all mode keeps mode 2 across a remove-everywhere of pid 42. -/
theorem whitelist_auto_reset_witness :
    (((del_pid_sysc 42 2 c7st).2).table 2).monitored = 0
  ∧ (((del_pid 5 42 c7st).2).table 3).monitored = 2 := by
  have h := whitelist_auto_reset 42 2 3 5 c7st
  exact ⟨h.1 (by decide), h.2.2.2 (by decide)⟩

lemma delFirst_length (pid : Int) :
    ∀ (l l' : List Int), delFirst pid l = some l' → l.length = l'.length + 1 := by
  intro l
  induction l with
  | nil => intro l' h; cases h
  | cons x xs ih =>
    intro l' h
    by_cases hx : x = pid
    · simp only [delFirst, if_pos hx, Option.some.injEq] at h
      subst h
      rfl
    · simp only [delFirst, if_neg hx, Option.map_eq_some'] at h
      obtain ⟨t, ht, rfl⟩ := h
      simp [ih t ht]

lemma delScan_cnt_sub (pid : Int) (l : List Int) :
    ∀ c m : Int,
      (delScan pid l c m).cnt - c = ((delScan pid l c m).lst.length : Int) - (l.length : Int) := by
  induction l with
  | nil => intro c m; simp [delScan]
  | cons x xs ih =>
    intro c m
    by_cases hx : x = pid
    · simp only [delScan, if_pos hx, List.length_cons]
      have h := ih (c - 1) (if c - 1 = 0 ∧ m = 1 then 0 else m)
      push_cast at h ⊢
      omega
    · simp only [delScan, if_neg hx, List.length_cons]
      have h := ih c m
      push_cast at h ⊢
      omega

lemma delScan_cnt_eq (pid : Int) (l : List Int) (c m : Int) (h : c = (l.length : Int)) :
    (delScan pid l c m).cnt = ((delScan pid l c m).lst.length : Int) := by
  have hs := delScan_cnt_sub pid l c m
  omega

lemma countInv_add (pid : Int) (sysc : Nat) (ok : Bool) (st : KState) (h : countInv st) :
    countInv (add_pid_sysc pid sysc ok st).2 := by
  intro s
  simp only [add_pid_sysc]
  split
  · exact h s
  · by_cases hs : s = sysc
    · subst hs
      simp only [upd_self, List.length_cons]
      have := h s
      push_cast
      omega
    · simp only [upd_ne _ _ hs]
      exact h s

lemma countInv_del (pid : Int) (sysc : Nat) (st : KState) (h : countInv st) :
    countInv (del_pid_sysc pid sysc st).2 := by
  intro s
  simp only [del_pid_sysc]
  cases hd : delFirst pid (st.table sysc).my_list with
  | none => exact h s
  | some l =>
    have hlen := delFirst_length pid _ _ hd
    by_cases hs : s = sysc
    · subst hs
      simp only [upd_self]
      have := h s
      push_cast at this ⊢
      omega
    · simp only [upd_ne _ _ hs]
      exact h s

lemma countInv_delStep (pid : Int) (a : Nat) (b : Bool) (st : KState) (h : countInv st) :
    countInv ((delStep pid (b, st) a).2) := by
  intro s
  simp only [delStep]
  by_cases hs : s = a
  · subst hs
    simp only [upd_self, del_pid_entry]
    exact delScan_cnt_eq pid _ _ _ (h s)
  · simp only [upd_ne _ _ hs]
    exact h s

lemma countInv_foldl_delStep (pid : Int) (l : List Nat) :
    ∀ (b : Bool) (st : KState), countInv st → countInv ((l.foldl (delStep pid) (b, st)).2) := by
  induction l with
  | nil => intro b st h; exact h
  | cons a t ih =>
    intro b st h
    simp only [List.foldl_cons]
    exact ih _ _ (countInv_delStep pid a b st h)

lemma countInv_del_pid (NR : Nat) (pid : Int) (st : KState) (h : countInv st) :
    countInv (del_pid NR pid st).2 := by
  simp only [del_pid]
  exact countInv_foldl_delStep pid _ false st h

lemma countInv_clear (sysc : Nat) (st : KState) (h : countInv st) :
    countInv (destroy_list sysc st) := by
  intro s
  simp only [destroy_list]
  by_cases hs : s = sysc
  · subst hs
    simp only [upd_self]
    rfl
  · simp only [upd_ne _ _ hs]
    exact h s

lemma countInv_listStep (NR : Nat) (st : KState) (op : ListOp) (h : countInv st) :
    countInv (listStep NR st op) := by
  cases op with
  | add pid sysc ok => exact countInv_add pid sysc ok st h
  | del pid sysc => exact countInv_del pid sysc st h
  | delEverywhere pid => exact countInv_del_pid NR pid st h
  | clear sysc => exact countInv_clear sysc st h

lemma countInv_foldl_listStep (NR : Nat) (ops : List ListOp) :
    ∀ st : KState, countInv st → countInv (ops.foldl (listStep NR) st) := by
  induction ops with
  | nil => intro st h; exact h
  | cons o t ih =>
    intro st h
    simp only [List.foldl_cons]
    exact ih _ (countInv_listStep NR st o h)

lemma countInv_state0 : countInv state0 := fun _ => rfl

lemma countInv_init (NR MCS EXITG : Nat) (st : KState) (h : countInv st) :
    countInv (init_function NR MCS EXITG st) := by
  intro s
  simp only [init_function]
  split
  · rfl
  · exact h s

/-- C8: confirmed.  Starting from the module state produced by init_function, after any
sequence of add_pid_sysc, del_pid_sysc, del_pid (remove everywhere) and
destroy_list operations, every table entry satisfies listcount equal to the
length of its pid list. -/
theorem listcount_eq_length (NR MCS EXITG : Nat) (ops : List ListOp) (s : Nat) :
    ((ops.foldl (listStep NR) (init_function NR MCS EXITG state0)).table s).listcount
      = (((ops.foldl (listStep NR) (init_function NR MCS EXITG state0)).table s).my_list.length : Int) :=
  countInv_foldl_listStep NR ops (init_function NR MCS EXITG state0)
    (countInv_init NR MCS EXITG state0 countInv_state0) s

/-- Closed instance of listcount_eq_length on a concrete operation
sequence: two adds, one removal and a remove-everywhere. -/
theorem listcount_eq_length_witness :
    ((([ListOp.add 42 2 true, ListOp.add 7 2 true, ListOp.del 42 2,
        ListOp.delEverywhere 7]).foldl (listStep 5) (init_function 5 3 4 state0)).table 2).listcount
      = (((([ListOp.add 42 2 true, ListOp.add 7 2 true, ListOp.del 42 2,
        ListOp.delEverywhere 7]).foldl (listStep 5) (init_function 5 3 4 state0)).table 2).my_list.length : Int) :=
  listcount_eq_length 5 3 4
    [ListOp.add 42 2 true, ListOp.add 7 2 true, ListOp.del 42 2, ListOp.delEverywhere 7] 2

lemma add_pid_sysc_fst (pid : Int) (sysc : Nat) (ok : Bool) (st : KState) :
    (add_pid_sysc pid sysc ok st).1 = 0 ∨ (add_pid_sysc pid sysc ok st).1 = -ENOMEM := by
  simp only [add_pid_sysc]
  split
  · right; rfl
  · left; rfl

lemma del_pid_sysc_fst (pid : Int) (sysc : Nat) (st : KState) :
    (del_pid_sysc pid sysc st).1 = 0 ∨ (del_pid_sysc pid sysc st).1 = -EINVAL := by
  simp only [del_pid_sysc]
  cases hd : delFirst pid (st.table sysc).my_list with
  | none => right; rfl
  | some l => left; rfl

lemma monitorAdd_fst (sysc : Nat) (pid : Int) (ok : Bool) (st : KState) :
    (monitorAdd sysc pid ok st).1 = 0 ∨ (monitorAdd sysc pid ok st).1 = -EBUSY
      ∨ (monitorAdd sysc pid ok st).1 = -ENOMEM := by
  simp only [monitorAdd]
  split
  · right; left; rfl
  · split
    · left; rfl
    · next hne =>
      rcases add_pid_sysc_fst pid sysc ok st with h | h
      · exact absurd h hne
      · right; right; exact h

/-- C9: confirmed.  Both monitoring request handlers return -EPERM with the
state unchanged exactly when the caller is not root and either pid is 0 or
the caller does not own pid; when the caller is root, or pid is nonzero and
owned by the caller, neither handler returns -EPERM (it proceeds past the
permission check into the command body). -/
theorem monitoring_permission_check (uid : Int) (owns : Bool) (sysc : Nat) (pid : Int)
    (ok : Bool) (st : KState) :
    (¬ (uid = 0 ∨ (pid ≠ 0 ∧ owns = true)) →
        request_start_monitoring uid owns sysc pid ok st = (-EPERM, st)
      ∧ request_stop_monitoring uid owns sysc pid ok st = (-EPERM, st))
  ∧ ((uid = 0 ∨ (pid ≠ 0 ∧ owns = true)) →
        (request_start_monitoring uid owns sysc pid ok st).1 ≠ -EPERM
      ∧ (request_stop_monitoring uid owns sysc pid ok st).1 ≠ -EPERM) := by
  constructor
  · intro h
    have hg : uid ≠ 0 ∧ (pid = 0 ∨ owns = false) := by
      push_neg at h
      refine ⟨h.1, ?_⟩
      by_cases hp : pid = 0
      · exact Or.inl hp
      · exact Or.inr (by simpa using h.2 hp)
    constructor
    · simp only [request_start_monitoring, if_pos hg]
    · simp only [request_stop_monitoring, if_pos hg]
  · intro h
    have hg : ¬ (uid ≠ 0 ∧ (pid = 0 ∨ owns = false)) := by
      rcases h with h0 | ⟨hp, ho⟩
      · exact fun hc => hc.1 h0
      · rintro ⟨-, hc | hc⟩
        · exact hp hc
        · rw [ho] at hc; cases hc
    constructor
    · simp only [request_start_monitoring, if_neg hg]
      split
      · split
        · norm_num [EPERM, EBUSY]
        · norm_num [EPERM]
      · split
        · rcases monitorAdd_fst sysc pid ok st with h0 | h0 | h0 <;> rw [h0] <;> decide
        · rcases del_pid_sysc_fst pid sysc st with h0 | h0 <;> rw [h0] <;> decide
    · simp only [request_stop_monitoring, if_neg hg]
      split
      · split
        · norm_num [EPERM, EINVAL]
        · norm_num [EPERM]
      · split
        · rcases monitorAdd_fst sysc pid ok st with h0 | h0 | h0 <;> rw [h0] <;> decide
        · rcases del_pid_sysc_fst pid sysc st with h0 | h0 <;> rw [h0] <;> decide

/-- Closed instance of monitoring_permission_check: an unprivileged caller
(uid 5) requesting pid 0 is denied with no state change, and a root caller
requesting pid 7 is not denied. -/
theorem monitoring_permission_check_witness :
    (request_start_monitoring 5 false 2 0 true state0 = (-EPERM, state0)
      ∧ request_stop_monitoring 5 false 2 0 true state0 = (-EPERM, state0))
  ∧ ((request_start_monitoring 0 true 2 7 true state0).1 ≠ -EPERM
      ∧ (request_stop_monitoring 0 true 2 7 true state0).1 ≠ -EPERM) :=
  ⟨(monitoring_permission_check 5 false 2 0 true state0).1 (by decide),
   (monitoring_permission_check 0 true 2 7 true state0).2 (by decide)⟩

/-- C10: confirmed.  For any command value outside the four defined
commands (the default case of the switch), my_syscall returns -EINVAL and
leaves the state unchanged, for every in-range operation identifier and
every pid. -/
theorem my_syscall_unknown_cmd (NR : Nat) (uid : Int) (owns pe ok : Bool) (code : Int)
    (sysc pid : Int) (st : KState) (h1 : 0 < sysc) (h2 : sysc ≤ (NR : Int)) :
    my_syscall NR uid owns pe ok (Cmd.other code) sysc pid st = (-EINVAL, st) := by
  simp only [my_syscall]
  rw [if_neg (by omega)]

/-- Closed instance of my_syscall_unknown_cmd at command code 99. -/
theorem my_syscall_unknown_cmd_witness :
    my_syscall 5 0 true true true (Cmd.other 99) 2 7 state0 = (-EINVAL, state0) :=
  my_syscall_unknown_cmd 5 0 true true true 99 2 7 state0 (by decide) (by decide)

end Interceptor
